import Mathlib

/-!
Verification of the process-pool downloader (`s3transfer/processpool.py`).

The Python source is shallowly embedded: pure computations become Lean
functions, the cross-process `TransferMonitor` becomes explicit state
passing over a map from transfer ids to `TransferState`, and interactions
with external collaborators (the S3 client, the OS utilities) are driven
by explicit oracle parameters describing the outcome of each external
call.  Queue operations performed by the submitter are recorded as an
event trace so that ordering properties can be stated.
-/

/-- Exceptions that can be recorded for a transfer.  `clientError` models an
arbitrary error raised by the S3 client (its `retryable` flag says whether it
belongs to the retryable download error kinds), `osError` models an error
raised by the OS utilities, `valueError` models the `ValueError` raised for an
invalid `extra_args` key (carrying the offending key), `cancelledError` models
`CancelledError` and `retriesExceeded` models `RetriesExceededError` wrapping
the last underlying error (`retriesExceededNone` is `RetriesExceededError`
applied to Python's `None`, reachable only if the attempt cap were zero). -/
inductive Exc where
  | cancelledError : Exc
  | retriesExceeded (last : Exc) : Exc
  | retriesExceededNone : Exc
  | clientError (code : Nat) (retryable : Bool) : Exc
  | osError (code : Nat) : Exc
  | valueError (badKey : String) : Exc
deriving DecidableEq, Repr

/-- Modelled from the spec: `S3_RETRYABLE_DOWNLOAD_ERRORS` from
`s3transfer.utils` is not under `src/`.  The spec says the client classifies
certain error kinds as retryable vs fatal; membership in the retryable set is
carried by the `retryable` flag of a client error, and no other exception kind
is retryable. -/
def isS3RetryableDownloadError : Exc → Bool
  | .clientError _ retryable => retryable
  | _ => false

/-- Modelled from the spec: the constant `MB` from `s3transfer.constants` is
not under `src/`; the spec gives the defaults in MiB (8 MiB threshold and
chunk size), so `MB` is one mebibyte. -/
def MB : Nat := 1024 * 1024

/-- Modelled from the spec: `calculate_num_parts` from `s3transfer.utils` is
not under `src/`; the spec says `num_parts = ceil(size / chunksize)`.  This is
the usual natural-number ceiling division. -/
def calculate_num_parts (size partSize : Nat) : Nat :=
  (size + partSize - 1) / partSize

/-- Modelled from the spec: `calculate_range_parameter` from
`s3transfer.utils` is not under `src/`.  Per the spec, part `i` of
`numParts` parts with chunk size `partSize` covers the inclusive byte range
starting at `i * partSize`; the last part's range is clamped to the true
size (its inclusive end is `size - 1`), every other part ends at
`i * partSize + partSize - 1`.  The result is the (first, last) pair of the
inclusive byte range. -/
def calculate_range_parameter (partSize i numParts size : Nat) : Nat × Nat :=
  (i * partSize,
   if i = numParts - 1 then size - 1 else i * partSize + partSize - 1)

/-- Values of `extra_args` entries: either an opaque string or a computed
byte-range parameter (kept structured so range bounds can be inspected). -/
inductive ArgVal where
  | str (s : String) : ArgVal
  | range (first last : Nat) : ArgVal
deriving DecidableEq, Repr

/-- `ProcessTransferConfig.__init__` (processpool.py lines 70-87). -/
structure ProcessTransferConfig where
  multipart_threshold : Nat := 8 * MB
  multipart_chunksize : Nat := 8 * MB
  max_request_processes : Nat := 10
deriving DecidableEq, Repr

/-- The `DownloadFileRequest` namedtuple (processpool.py lines 41-50).
`extra_args` is an association list of request options. -/
structure DownloadFileRequest where
  transfer_id : Nat
  bucket : String
  key : String
  filename : String
  extra_args : List (String × ArgVal)
  expected_size : Option Nat
deriving DecidableEq, Repr

/-- The `GetObjectJob` namedtuple (processpool.py lines 54-67). -/
structure GetObjectJob where
  transfer_id : Nat
  bucket : String
  key : String
  temp_filename : String
  extra_args : List (String × ArgVal)
  offset : Nat
  filename : String
deriving DecidableEq, Repr

/-- Python `dict.update`: start from `base` and overwrite with `upd`; a key of
`base` survives only when `upd` does not bind it, and lookups prefer `upd`.
Models `get_object_kwargs = dict of Range; get_object_kwargs.update(extra_args)`
(processpool.py lines 554-555). -/
def dictUpdate (base upd : List (String × ArgVal)) : List (String × ArgVal) :=
  base.filter (fun p => (upd.lookup p.1).isNone) ++ upd

/-- `TransferState.__init__` (processpool.py lines 416-420): recorded
exception, done event, and the remaining-job counter.  The counter is an
integer because Python's decrement can pass below zero. -/
structure TransferState where
  exception : Option Exc := none
  doneEvent : Bool := false
  jobsToComplete : Int := 0
deriving DecidableEq, Repr

/-- `TransferState.set_done` (processpool.py lines 426-427). -/
def TransferState.set_done (s : TransferState) : TransferState :=
  { s with doneEvent := true }

/-- `TransferState.decrement_jobs_to_complete` (processpool.py lines
448-451): atomically decrement and return the new count.  The per-transfer
lock makes the operation atomic; in this sequential embedding it is a pure
state update returning the new state and the returned count. -/
def TransferState.decrement_jobs_to_complete (s : TransferState) :
    TransferState × Int :=
  ({ s with jobsToComplete := s.jobsToComplete - 1 }, s.jobsToComplete - 1)

/-- The `TransferMonitor`'s table of transfer states (processpool.py line
338): a `defaultdict(TransferState)`, i.e. every id is lazily bound to the
default state. -/
structure TransferMonitor where
  transferStates : Nat → TransferState

/-- The monitor with no recorded state: every id maps to the default
`TransferState` (the `defaultdict` default). -/
def initialMonitor : TransferMonitor := ⟨fun _ => {}⟩

/-- Update the state of one transfer id in the monitor's table. -/
def TransferMonitor.updateState (m : TransferMonitor) (id : Nat)
    (f : TransferState → TransferState) : TransferMonitor :=
  ⟨fun j => if j = id then f (m.transferStates j) else m.transferStates j⟩

/-- `TransferMonitor.is_done` (processpool.py lines 340-346). -/
def TransferMonitor.is_done (m : TransferMonitor) (id : Nat) : Bool :=
  (m.transferStates id).doneEvent

/-- `TransferMonitor.notify_done` (processpool.py lines 348-353). -/
def TransferMonitor.notify_done (m : TransferMonitor) (id : Nat) :
    TransferMonitor :=
  m.updateState id TransferState.set_done

/-- `TransferMonitor.notify_exception` (processpool.py lines 369-379):
records the exception, overwriting any prior value. -/
def TransferMonitor.notify_exception (m : TransferMonitor) (id : Nat)
    (e : Exc) : TransferMonitor :=
  m.updateState id (fun s => { s with exception := some e })

/-- `TransferMonitor.get_exception` (processpool.py lines 381-388). -/
def TransferMonitor.get_exception (m : TransferMonitor) (id : Nat) :
    Option Exc :=
  (m.transferStates id).exception

/-- `TransferMonitor.notify_expected_jobs_to_complete` (processpool.py lines
390-396): sets the remaining-job counter. -/
def TransferMonitor.notify_expected_jobs_to_complete (m : TransferMonitor)
    (id : Nat) (numJobs : Int) : TransferMonitor :=
  m.updateState id (fun s => { s with jobsToComplete := numJobs })

/-- `TransferMonitor.notify_job_complete` (processpool.py lines 398-404):
decrement the transfer's counter and return the new count. -/
def TransferMonitor.notify_job_complete (m : TransferMonitor) (id : Nat) :
    TransferMonitor × Int :=
  let p := (m.transferStates id).decrement_jobs_to_complete
  (m.updateState id (fun _ => p.1), p.2)

/-! ## Submitter (`GetObjectSubmitter`, processpool.py lines 461-567)

The submitter's externally visible actions (monitor notifications and
`worker_queue.put` calls) are recorded in order as an event trace, so that
the ordering of registration versus job visibility can be stated. -/

/-- One externally visible action of the submitter, in program order. -/
inductive SubmitEvent where
  | notifyExpected (id : Nat) (numJobs : Int) : SubmitEvent
  | putJob (job : GetObjectJob) : SubmitEvent
  | notifyExc (id : Nat) (e : Exc) : SubmitEvent
  | notifyDone (id : Nat) : SubmitEvent
deriving DecidableEq, Repr

/-- Whether an event is a `worker_queue.put` of a job. -/
def SubmitEvent.isPutJob : SubmitEvent → Bool
  | .putJob _ => true
  | _ => false

/-- The jobs put on the worker queue by a trace, in order. -/
def jobsOfTrace (tr : List SubmitEvent) : List GetObjectJob :=
  tr.filterMap (fun e =>
    match e with
    | .putJob j => some j
    | _ => none)

/-- Interpret one submitter event as a monitor update (a `putJob` event does
not touch the monitor). -/
def applyEvent (m : TransferMonitor) : SubmitEvent → TransferMonitor
  | .notifyExpected id n => m.notify_expected_jobs_to_complete id n
  | .putJob _ => m
  | .notifyExc id e => m.notify_exception id e
  | .notifyDone id => m.notify_done id

/-- Interpret a submitter trace over the monitor, in order. -/
def applyTrace (m : TransferMonitor) (tr : List SubmitEvent) : TransferMonitor :=
  tr.foldl applyEvent m

/-- `GetObjectSubmitter._get_size` (processpool.py lines 514-521): use the
request's `expected_size` when supplied, otherwise the result of the
`head_object` call, given by the oracle `headResult` (`.error e` when the
client call raises `e`, `.ok n` when it returns content length `n`). -/
def getSize (req : DownloadFileRequest) (headResult : Except Exc Nat) :
    Except Exc Nat :=
  match req.expected_size with
  | some s => .ok s
  | none => headResult

/-- `GetObjectSubmitter._submit_single_get_object_job` (processpool.py lines
530-542) as a trace: register one expected job, then put one whole-object
job at offset 0 with the request's own `extra_args`. -/
def submitSingleGetObjectJobTrace (req : DownloadFileRequest)
    (tempFilename : String) : List SubmitEvent :=
  [ .notifyExpected req.transfer_id 1,
    .putJob
      { transfer_id := req.transfer_id, bucket := req.bucket, key := req.key,
        temp_filename := tempFilename, extra_args := req.extra_args,
        offset := 0, filename := req.filename } ]

/-- `GetObjectSubmitter._submit_ranged_get_object_jobs` (processpool.py lines
544-564) as a trace: register `num_parts` expected jobs, then put one job per
part with offset `i * part_size` and the computed `Range` parameter merged
under the request's `extra_args`. -/
def submitRangedGetObjectJobsTrace (config : ProcessTransferConfig)
    (req : DownloadFileRequest) (tempFilename : String) (size : Nat) :
    List SubmitEvent :=
  let partSize := config.multipart_chunksize
  let numParts := calculate_num_parts size partSize
  SubmitEvent.notifyExpected req.transfer_id numParts ::
    (List.range numParts).map (fun i =>
      let offset := i * partSize
      let rangeParameter := calculate_range_parameter partSize i numParts size
      SubmitEvent.putJob
        { transfer_id := req.transfer_id, bucket := req.bucket,
          key := req.key, temp_filename := tempFilename,
          extra_args :=
            dictUpdate [("Range", ArgVal.range rangeParameter.1 rangeParameter.2)]
              req.extra_args,
          offset := offset, filename := req.filename })

/-- `GetObjectSubmitter._submit_get_object_jobs` (processpool.py lines
504-512): resolve the size, allocate the temp file, then submit the single
or the ranged jobs depending on the threshold.  `headResult` is the oracle
for the `head_object` call; `allocOutcome` is the oracle for
`osutil.allocate` (`some e` when allocation raises `e`); `tempFilename` is
the name produced by `osutil.get_temp_filename`.  The result is `.error e`
when resolving the size or allocating raises `e`, otherwise the trace of
events the submitter performs. -/
def submitGetObjectJobs (config : ProcessTransferConfig)
    (req : DownloadFileRequest) (headResult : Except Exc Nat)
    (allocOutcome : Option Exc) (tempFilename : String) :
    Except Exc (List SubmitEvent) :=
  match getSize req headResult with
  | .error e => .error e
  | .ok size =>
    match allocOutcome with
    | some e => .error e
    | none =>
      if size < config.multipart_threshold then
        .ok (submitSingleGetObjectJobTrace req tempFilename)
      else
        .ok (submitRangedGetObjectJobsTrace config req tempFilename size)

/-- The external-call oracles accompanying one download file request while
the submitter handles it. -/
structure SubmitterInput where
  req : DownloadFileRequest
  headResult : Except Exc Nat
  allocOutcome : Option Exc
  tempFilename : String

/-- The body of `GetObjectSubmitter.run` for one request (processpool.py
lines 496-502): try to submit the jobs; on any exception record it via
`notify_exception` and immediately mark the transfer done. -/
def submitterHandleRequest (config : ProcessTransferConfig)
    (inp : SubmitterInput) : List SubmitEvent :=
  match submitGetObjectJobs config inp.req inp.headResult inp.allocOutcome
      inp.tempFilename with
  | .ok tr => tr
  | .error e => [.notifyExc inp.req.transfer_id e,
                 .notifyDone inp.req.transfer_id]

/-- The `GetObjectSubmitter.run` loop (processpool.py lines 487-502) over a
finite stream of requests ending with the shutdown sentinel: each request is
handled in turn and the per-request traces are concatenated in order. -/
def submitterRun (config : ProcessTransferConfig)
    (inputs : List SubmitterInput) : List SubmitEvent :=
  match inputs with
  | [] => []
  | inp :: rest => submitterHandleRequest config inp ++ submitterRun config rest

/-! ## Caller surface (`ProcessPoolDownloader.download_file`, lines 125-166,
and `_validate_all_known_args`, lines 195-201) -/

/-- `ProcessPoolDownloader._validate_all_known_args` (processpool.py lines
195-201): walk the provided keys in order and raise `ValueError` on the
first key not in the allow-list.  The allow-list `ALLOWED_DOWNLOAD_ARGS`
itself lives in `s3transfer.constants`, outside `src/`, so it is a
parameter here. -/
def validateAllKnownArgs (allowed : List String) (provided : List String) :
    Except Exc Unit :=
  match provided with
  | [] => .ok ()
  | kwarg :: rest =>
    if kwarg ∈ allowed then validateAllKnownArgs allowed rest
    else .error (.valueError kwarg)

/-- `ProcessPoolDownloader.download_file` (processpool.py lines 125-166):
validate `extra_args` against the allow-list, then put the
`DownloadFileRequest` on the request queue and return a future for the
current id.  The result is `.error e` when validation raises `e` (nothing
was queued and no future is returned), otherwise the queued request paired
with the transfer id of the returned future. -/
def downloadFile (allowed : List String) (idCounter : Nat)
    (bucket key filename : String) (extraArgs : List (String × ArgVal))
    (expectedSize : Option Nat) :
    Except Exc (DownloadFileRequest × Nat) :=
  match validateAllKnownArgs allowed (extraArgs.map Prod.fst) with
  | .error e => .error e
  | .ok _ =>
    .ok ({ transfer_id := idCounter, bucket := bucket, key := key,
           filename := filename, extra_args := extraArgs,
           expected_size := expectedSize }, idCounter)

/-! ## Future (`ProcessPoolTransferFuture`, processpool.py lines 253-284)
and `TransferMonitor.poll_for_result` (lines 355-367) -/

/-- Outcome of `poll_for_result` as observed by the caller: still blocked in
`wait_till_done` (the done flag is not yet set), raised the recorded
failure, or returned normally. -/
inductive PollOutcome where
  | blocked : PollOutcome
  | raised (e : Exc) : PollOutcome
  | returned : PollOutcome
deriving DecidableEq, Repr

/-- `TransferMonitor.poll_for_result` (processpool.py lines 355-367): wait
until the done event is set, then raise the recorded exception if there is
one and otherwise return `None`.  The blocking wait is modelled by the
`blocked` outcome while the done flag is unset. -/
def pollForResult (m : TransferMonitor) (id : Nat) : PollOutcome :=
  if m.is_done id then
    match m.get_exception id with
    | some e => .raised e
    | none => .returned
  else .blocked

/-- `ProcessPoolTransferFuture.cancel` (processpool.py lines 281-284):
record a `CancelledError` for the transfer via `notify_exception`. -/
def futureCancel (m : TransferMonitor) (id : Nat) : TransferMonitor :=
  m.notify_exception id Exc.cancelledError

/-- Outcome of `ProcessPoolTransferFuture.result` as observed by the
caller. -/
inductive ResultOutcome where
  | blocked : ResultOutcome
  | ok : ResultOutcome
  | raised (e : Exc) : ResultOutcome
  | interruptRaised : ResultOutcome
deriving DecidableEq, Repr

/-- `ProcessPoolTransferFuture.result` (processpool.py lines 274-279): try
`poll_for_result`; when a `KeyboardInterrupt` arrives during the wait
(oracle `interrupted`), call `cancel()` and re-raise the interrupt.  The
result is the monitor after the call together with the caller-observed
outcome. -/
def futureResult (m : TransferMonitor) (id : Nat) (interrupted : Bool) :
    TransferMonitor × ResultOutcome :=
  if interrupted then (futureCancel m id, .interruptRaised)
  else
    (m,
     match pollForResult m id with
     | .blocked => .blocked
     | .raised e => .raised e
     | .returned => .ok)

/-! ## Worker (`GetObjectWorker`, processpool.py lines 570-658) -/

/-- `GetObjectWorker._MAX_ATTEMPTS` (processpool.py line 573). -/
def MAX_ATTEMPTS : Nat := 5

/-- `GetObjectWorker._IO_CHUNKSIZE` (processpool.py line 574). -/
def IO_CHUNKSIZE : Nat := 2 * MB

/-- The outcome of one `get_object`-and-write attempt inside
`_do_get_object`: the call and the write succeed, or an exception `e` is
raised. -/
inductive GetAttempt where
  | success : GetAttempt
  | failure (e : Exc) : GetAttempt
deriving DecidableEq, Repr

/-- The retry loop of `GetObjectWorker._do_get_object` (processpool.py lines
624-637), unrolled from attempt index `i` with `fuel` loop iterations left:
a successful attempt returns, a retryable failure is remembered as the last
exception and the loop continues, a non-retryable failure propagates
immediately, and an exhausted loop raises `RetriesExceededError` wrapping
the last exception.  `attempts` is the oracle giving each attempt's
outcome. -/
def doGetObjectFrom (attempts : Nat → GetAttempt) (i : Nat) :
    Nat → Option Exc → Except Exc Unit
  | 0, lastException =>
    .error (match lastException with
            | some e => .retriesExceeded e
            | none => .retriesExceededNone)
  | fuel + 1, _lastException =>
    match attempts i with
    | .success => .ok ()
    | .failure e =>
      if isS3RetryableDownloadError e then
        doGetObjectFrom attempts (i + 1) fuel (some e)
      else .error e

/-- `GetObjectWorker._do_get_object` (processpool.py lines 624-637): run the
retry loop for `_MAX_ATTEMPTS` attempts starting with no last exception. -/
def doGetObject (attempts : Nat → GetAttempt) : Except Exc Unit :=
  doGetObjectFrom attempts 0 MAX_ATTEMPTS none

/-- `GetObjectWorker._run_get_object_job` (processpool.py lines 614-622):
perform `_do_get_object` and record any raised exception for the transfer
via `notify_exception`. -/
def runGetObjectJob (m : TransferMonitor) (id : Nat)
    (attempts : Nat → GetAttempt) : TransferMonitor :=
  match doGetObject attempts with
  | .ok _ => m
  | .error e => m.notify_exception id e

/-- The filesystem facts relevant to finalization: whether the transfer's
temp file and its destination path exist. -/
structure FsState where
  tempExists : Bool
  destExists : Bool
deriving DecidableEq, Repr

/-- `GetObjectWorker._do_file_rename` (processpool.py lines 653-658): try to
rename the temp file to the destination; when the rename raises (oracle
`renameOutcome = some e`), record the failure and remove the temp file. -/
def doFileRename (m : TransferMonitor) (id : Nat) (fs : FsState)
    (renameOutcome : Option Exc) : TransferMonitor × FsState :=
  match renameOutcome with
  | none => (m, { tempExists := false, destExists := true })
  | some e => (m.notify_exception id e, { fs with tempExists := false })

/-- `GetObjectWorker._finalize_download` (processpool.py lines 646-651): if
an exception is recorded for the transfer, remove the temp file; otherwise
do the rename; in every case notify the transfer done. -/
def finalizeDownload (m : TransferMonitor) (id : Nat) (fs : FsState)
    (renameOutcome : Option Exc) : TransferMonitor × FsState :=
  let p :=
    if (m.get_exception id).isSome then (m, { fs with tempExists := false })
    else doFileRename m id fs renameOutcome
  (p.1.notify_done id, p.2)

/-- The external-call oracles for one job consumed by a worker: the outcome
of each `get_object` attempt and the outcome of the finalizing rename (used
only when this job finalizes). -/
structure JobEnv where
  attempts : Nat → GetAttempt
  renameOutcome : Option Exc

/-- The body of the `GetObjectWorker.run` loop for one consumed job
(processpool.py lines 601-612): skip the download work when the transfer
already has a recorded exception, otherwise run the job; in either case
notify one job complete, and when the returned remaining count is zero
(Python's `if not remaining`) finalize the download.  The returned flag says
whether this step performed the finalize. -/
def workerRunOneJob (m : TransferMonitor) (fs : FsState) (job : GetObjectJob)
    (env : JobEnv) : TransferMonitor × FsState × Bool :=
  let m1 :=
    if (m.get_exception job.transfer_id).isSome then m
    else runGetObjectJob m job.transfer_id env.attempts
  let p := m1.notify_job_complete job.transfer_id
  if p.2 = 0 then
    let q := finalizeDownload p.1 job.transfer_id fs env.renameOutcome
    (q.1, q.2, true)
  else (p.1, fs, false)

/-- A serialized sequence of worker steps, one per consumed job (in the
order the per-transfer lock serializes the decrements), returning the final
monitor and filesystem state together with the list of finalize flags, one
per job in order. -/
def workerRunJobs (m : TransferMonitor) (fs : FsState) :
    List (GetObjectJob × JobEnv) → TransferMonitor × FsState × List Bool
  | [] => (m, fs, [])
  | (job, env) :: rest =>
    let r := workerRunOneJob m fs job env
    let s := workerRunJobs r.1 r.2.1 rest
    (s.1, s.2.1, r.2.2 :: s.2.2)

/-! ## Writing the body to the temp file
(`GetObjectWorker._write_to_file`, processpool.py lines 639-644) -/

/-- Split a list into consecutive chunks of `n` elements (the last chunk may
be shorter), as `iter(lambda: body.read(n), b'')` yields them. -/
def chunksOf (n : Nat) : List Nat → List (List Nat)
  | [] => []
  | x :: xs => (x :: xs.take (n - 1)) :: chunksOf n (xs.drop (n - 1))
termination_by l => l.length
decreasing_by
  simp only [List.length_cons, List.length_drop]
  omega

/-- One positional write of `data` at byte position `pos` into an open file
whose contents are `file` (no truncation: bytes before `pos` and from
`pos + data.length` on are untouched). -/
def writeAt (file : List Nat) (pos : Nat) (data : List Nat) : List Nat :=
  file.take pos ++ data ++ file.drop (pos + data.length)

/-- Successive positional writes of a list of chunks starting at `pos`, each
chunk written at the position where the previous one ended (the file cursor
after a write). -/
def writeChunks (file : List Nat) (pos : Nat) :
    List (List Nat) → List Nat
  | [] => file
  | c :: cs => writeChunks (writeAt file pos c) (pos + c.length) cs

/-- `GetObjectWorker._write_to_file` (processpool.py lines 639-644): open the
temp file read-write without truncation, seek to `offset`, and write the
body in `_IO_CHUNKSIZE`-sized chunks until exhausted. -/
def writeToFile (file : List Nat) (offset : Nat) (body : List Nat) :
    List Nat :=
  writeChunks file offset (chunksOf IO_CHUNKSIZE body)

/-- Whether one attempt outcome is a failure of a retryable kind (the
outcomes the retry loop continues on). -/
def GetAttempt.isRetryableFailure : GetAttempt → Bool
  | .failure e => isS3RetryableDownloadError e
  | .success => false

/-- The list of ranged jobs the submitter puts on the worker queue for a
multipart download. -/
def rangedJobs (config : ProcessTransferConfig) (req : DownloadFileRequest)
    (temp : String) (size : Nat) : List GetObjectJob :=
  jobsOfTrace (submitRangedGetObjectJobsTrace config req temp size)

/-- The list of finalize flags produced by a serialized run of worker steps
when the counter starts at `k`: step `i` observes the decremented value
`k - (i + 1)` and finalizes exactly when it is zero. -/
def flagsFrom (k : Int) : Nat → List Bool
  | 0 => []
  | n + 1 => decide (k - 1 = 0) :: flagsFrom (k - 1) n

/-- A concrete whole-object job for transfer 0. -/
def jobW : GetObjectJob :=
  { transfer_id := 0, bucket := "b", key := "k", temp_filename := "t",
    extra_args := [], offset := 0, filename := "f" }

/-- A job environment whose attempts all succeed and whose rename
succeeds. -/
def envW : JobEnv :=
  { attempts := fun _ => .success, renameOutcome := none }

/-- A job environment whose attempts all fail with a non-retryable error. -/
def envWfail : JobEnv :=
  { attempts := fun _ => .failure (.osError 1), renameOutcome := none }

/-! ## Concrete example inputs (used by witness statements) -/

/-- A small request whose expected size (5 bytes) is below an 8-byte
threshold. -/
def reqSmall : DownloadFileRequest :=
  { transfer_id := 0, bucket := "b", key := "k", filename := "f",
    extra_args := [], expected_size := some 5 }

/-- A request of expected size 20 bytes for an 8-byte chunk size. -/
def reqLarge : DownloadFileRequest :=
  { transfer_id := 0, bucket := "b", key := "k", filename := "f",
    extra_args := [], expected_size := some 20 }

/-- A request with no expected size, forcing a `head_object` call. -/
def reqHead : DownloadFileRequest :=
  { transfer_id := 4, bucket := "b", key := "k", filename := "f",
    extra_args := [], expected_size := none }

/-- A tiny configuration: threshold and chunk size of 8 bytes. -/
def configSmall : ProcessTransferConfig :=
  { multipart_threshold := 8, multipart_chunksize := 8,
    max_request_processes := 10 }

/-- A submitter input whose `head_object` call raises. -/
def inpHeadFails : SubmitterInput :=
  { req := reqHead, headResult := .error (.clientError 9 false),
    allocOutcome := none, tempFilename := "t" }

/-- A submitter input for the 20-byte ranged download. -/
def inpLarge : SubmitterInput :=
  { req := reqLarge, headResult := .ok 20, allocOutcome := none,
    tempFilename := "t" }

/-! ## Helper lemmas -/

theorem applyTrace_nil (m : TransferMonitor) : applyTrace m [] = m := rfl

theorem applyTrace_cons (m : TransferMonitor) (e : SubmitEvent)
    (l : List SubmitEvent) :
    applyTrace m (e :: l) = applyTrace (applyEvent m e) l := rfl

theorem transferStates_updateState (m : TransferMonitor) (id j : Nat)
    (f : TransferState → TransferState) :
    (m.updateState id f).transferStates j =
      if j = id then f (m.transferStates j) else m.transferStates j := rfl

theorem get_exception_notify_done (m : TransferMonitor) (id j : Nat) :
    (m.notify_done id).get_exception j = m.get_exception j := by
  simp only [TransferMonitor.notify_done, TransferMonitor.get_exception,
    transferStates_updateState]
  split <;> rfl

theorem is_done_notify_done (m : TransferMonitor) (id : Nat) :
    (m.notify_done id).is_done id = true := by
  simp [TransferMonitor.notify_done, TransferMonitor.is_done,
    transferStates_updateState, TransferState.set_done]

theorem get_exception_notify_exception (m : TransferMonitor) (id : Nat)
    (e : Exc) : (m.notify_exception id e).get_exception id = some e := by
  simp [TransferMonitor.notify_exception, TransferMonitor.get_exception,
    transferStates_updateState]

/-! ## Claim C3 -/

/-- Claim C3: for every object size strictly below the multipart threshold,
the submitter registers `jobs_remaining = 1` and produces exactly one
`GetObjectJob` at offset 0 whose `extra_args` contain no computed `Range`
parameter (a whole-object read). -/
theorem claim_C3 (config : ProcessTransferConfig) (req : DownloadFileRequest)
    (headResult : Except Exc Nat) (temp : String) (size : Nat)
    (m : TransferMonitor)
    (hsize : getSize req headResult = .ok size)
    (hlt : size < config.multipart_threshold)
    (hR : req.extra_args.lookup "Range" = none) :
    submitGetObjectJobs config req headResult none temp =
      .ok (submitSingleGetObjectJobTrace req temp) ∧
    (jobsOfTrace (submitSingleGetObjectJobTrace req temp)).length = 1 ∧
    ((applyTrace m (submitSingleGetObjectJobTrace req temp)).transferStates
        req.transfer_id).jobsToComplete = 1 ∧
    ∀ j ∈ jobsOfTrace (submitSingleGetObjectJobTrace req temp),
      j.offset = 0 ∧ j.extra_args.lookup "Range" = none := by
  refine ⟨?_, ?_, ?_, ?_⟩
  · simp [submitGetObjectJobs, hsize, hlt]
  · simp [submitSingleGetObjectJobTrace, jobsOfTrace]
  · simp [submitSingleGetObjectJobTrace, applyTrace, applyEvent,
      TransferMonitor.notify_expected_jobs_to_complete,
      transferStates_updateState]
  · intro j hj
    simp only [submitSingleGetObjectJobTrace, jobsOfTrace, List.filterMap,
      List.mem_singleton] at hj
    subst hj
    exact ⟨rfl, hR⟩

theorem claim_C3_witness :
    (getSize { transfer_id := 0, bucket := "b", key := "k", filename := "f",
               extra_args := [], expected_size := some 5 } (.ok 5) = .ok 5) ∧
    (5 < (8 : Nat)) ∧
    (jobsOfTrace (submitSingleGetObjectJobTrace
        { transfer_id := 0, bucket := "b", key := "k", filename := "f",
          extra_args := [], expected_size := some 5 } "t")).length = 1 := by
  refine ⟨rfl, by decide, ?_⟩
  exact (claim_C3
    { multipart_threshold := 8, multipart_chunksize := 8,
      max_request_processes := 10 }
    { transfer_id := 0, bucket := "b", key := "k", filename := "f",
      extra_args := [], expected_size := some 5 }
    (.ok 5) "t" 5 initialMonitor rfl (by decide) rfl).2.1

/-! ## Claim C7 -/

/-- Claim C7: if any exception is raised while the submitter handles a
download request (resolving the size or allocating the temp file), the
submitter records it via `notify_exception` and immediately marks the
transfer done via `notify_done`, without any job having been enqueued, and
then continues processing subsequent requests. -/
theorem claim_C7 (config : ProcessTransferConfig) (inp : SubmitterInput)
    (rest : List SubmitterInput) (m : TransferMonitor) (e : Exc)
    (herr : submitGetObjectJobs config inp.req inp.headResult
        inp.allocOutcome inp.tempFilename = .error e) :
    submitterHandleRequest config inp =
      [.notifyExc inp.req.transfer_id e, .notifyDone inp.req.transfer_id] ∧
    jobsOfTrace (submitterHandleRequest config inp) = [] ∧
    (applyTrace m (submitterHandleRequest config inp)).get_exception
        inp.req.transfer_id = some e ∧
    (applyTrace m (submitterHandleRequest config inp)).is_done
        inp.req.transfer_id = true ∧
    submitterRun config (inp :: rest) =
      submitterHandleRequest config inp ++ submitterRun config rest := by
  have htr : submitterHandleRequest config inp =
      [.notifyExc inp.req.transfer_id e, .notifyDone inp.req.transfer_id] := by
    simp [submitterHandleRequest, herr]
  refine ⟨htr, ?_, ?_, ?_, rfl⟩
  · rw [htr]; rfl
  · rw [htr]
    simp only [applyTrace_cons, applyTrace_nil, applyEvent]
    rw [get_exception_notify_done]
    exact get_exception_notify_exception m _ e
  · rw [htr]
    simp only [applyTrace_cons, applyTrace_nil, applyEvent]
    exact is_done_notify_done _ _

theorem claim_C7_witness :
    (submitGetObjectJobs {} inpHeadFails.req inpHeadFails.headResult
        inpHeadFails.allocOutcome inpHeadFails.tempFilename =
      .error (.clientError 9 false)) ∧
    jobsOfTrace (submitterHandleRequest {} inpHeadFails) = [] := by
  refine ⟨rfl, ?_⟩
  exact (claim_C7 {} inpHeadFails [] initialMonitor
    (.clientError 9 false) rfl).2.1

/-! ## Claim C8 -/

theorem validateAllKnownArgs_error (allowed : List String) :
    ∀ provided : List String, ∀ key ∈ provided, key ∉ allowed →
      ∃ bad, validateAllKnownArgs allowed provided =
          .error (.valueError bad) ∧ bad ∈ provided ∧ bad ∉ allowed := by
  intro provided
  induction provided with
  | nil => intro key h; cases h
  | cons kwarg rest ih =>
    intro key hmem hbad
    by_cases hk : kwarg ∈ allowed
    · have hkeyne : key ≠ kwarg := by
        intro h; subst h
        exact hbad hk
      have hkeyrest : key ∈ rest := by
        rcases List.mem_cons.mp hmem with h | h
        · exact absurd h hkeyne
        · exact h
      obtain ⟨bad, hb1, hb2, hb3⟩ := ih key hkeyrest hbad
      refine ⟨bad, ?_, List.mem_cons_of_mem _ hb2, hb3⟩
      simpa [validateAllKnownArgs, hk] using hb1
    · refine ⟨kwarg, ?_, List.mem_cons_self _ _, hk⟩
      simp [validateAllKnownArgs, hk]

/-- Claim C8: calling `download_file` with an `extra_args` mapping containing
any key outside the fixed allow-list raises a `ValueError` synchronously in
the caller, before the `DownloadFileRequest` is put on the request queue (the
`.error` result carries no queued request), so such a request never reaches
the submitter and no future is returned. -/
theorem claim_C8 (allowed : List String) (idCounter : Nat)
    (bucket key filename : String) (extraArgs : List (String × ArgVal))
    (expectedSize : Option Nat) (k : String)
    (hmem : k ∈ extraArgs.map Prod.fst) (hbad : k ∉ allowed) :
    ∃ bad, downloadFile allowed idCounter bucket key filename extraArgs
        expectedSize = .error (.valueError bad) ∧
      bad ∈ extraArgs.map Prod.fst ∧ bad ∉ allowed := by
  obtain ⟨bad, hb1, hb2, hb3⟩ :=
    validateAllKnownArgs_error allowed (extraArgs.map Prod.fst) k hmem hbad
  exact ⟨bad, by simp [downloadFile, hb1], hb2, hb3⟩

theorem claim_C8_witness :
    ("Evil" ∈ ([("Evil", ArgVal.str "x")].map Prod.fst)) ∧
    ("Evil" ∉ ["VersionId", "RequestPayer"]) ∧
    ∃ bad, downloadFile ["VersionId", "RequestPayer"] 0 "b" "k" "f"
        [("Evil", ArgVal.str "x")] none = .error (.valueError bad) ∧
      bad ∈ ([("Evil", ArgVal.str "x")].map Prod.fst) ∧
      bad ∉ ["VersionId", "RequestPayer"] := by
  refine ⟨by decide, by decide, ?_⟩
  exact claim_C8 ["VersionId", "RequestPayer"] 0 "b" "k" "f"
    [("Evil", ArgVal.str "x")] none "Evil" (by decide) (by decide)

/-! ## Claim C9 -/

/-- Claim C9: `Future.result()` delegates to the monitor's
`poll_for_result`, which blocks until the transfer's done flag is observed
(the `blocked` outcome while the flag is unset) and then raises the recorded
failure if one exists or returns normally otherwise; and if the caller's
wait is interrupted by an external interrupt, `result()` invokes `cancel()`
— which records a distinguished cancelled failure via `notify_exception` —
before propagating the interrupt. -/
theorem claim_C9 (m : TransferMonitor) (id : Nat) :
    (∀ e, m.is_done id = true → m.get_exception id = some e →
      futureResult m id false = (m, .raised e)) ∧
    (m.is_done id = true → m.get_exception id = none →
      futureResult m id false = (m, .ok)) ∧
    (m.is_done id = false → futureResult m id false = (m, .blocked)) ∧
    futureResult m id true = (futureCancel m id, .interruptRaised) ∧
    (futureResult m id true).1.get_exception id = some .cancelledError := by
  refine ⟨?_, ?_, ?_, rfl, ?_⟩
  · intro e hdone hexc
    simp [futureResult, pollForResult, hdone, hexc]
  · intro hdone hexc
    simp [futureResult, pollForResult, hdone, hexc]
  · intro hdone
    simp [futureResult, pollForResult, hdone]
  · show (futureCancel m id).get_exception id = some .cancelledError
    exact get_exception_notify_exception m id .cancelledError

theorem claim_C9_witness :
    ((initialMonitor.notify_exception 7 (.osError 3)).notify_done 7).is_done
        7 = true ∧
    ((initialMonitor.notify_exception 7 (.osError 3)).notify_done
        7).get_exception 7 = some (.osError 3) ∧
    futureResult ((initialMonitor.notify_exception 7 (.osError 3)).notify_done
        7) 7 false =
      ((initialMonitor.notify_exception 7 (.osError 3)).notify_done 7,
       .raised (.osError 3)) ∧
    (futureResult initialMonitor 7 true).1.get_exception 7 =
      some .cancelledError := by
  refine ⟨by decide, by decide, ?_, ?_⟩
  · exact (claim_C9 ((initialMonitor.notify_exception 7
      (.osError 3)).notify_done 7) 7).1 (.osError 3) (by decide) (by decide)
  · exact (claim_C9 initialMonitor 7).2.2.2.2

/-! ## Claim C4 -/

/-- Claim C4: in the finalize step, if a failure is recorded for the
transfer the temp file is deleted and the destination path is never created
(so a later `result()` raises that failure); if no failure is recorded the
temp file is renamed to the destination path; if that rename itself fails
the rename error is recorded and the temp file is deleted; and `notify_done`
is called in every one of these cases. -/
theorem claim_C4 (m : TransferMonitor) (id : Nat) (fs : FsState)
    (renameOutcome : Option Exc) :
    (finalizeDownload m id fs renameOutcome).1.is_done id = true ∧
    (∀ e, m.get_exception id = some e →
      (finalizeDownload m id fs renameOutcome).2.tempExists = false ∧
      (finalizeDownload m id fs renameOutcome).2.destExists = fs.destExists ∧
      pollForResult (finalizeDownload m id fs renameOutcome).1 id =
        .raised e) ∧
    (m.get_exception id = none → renameOutcome = none →
      (finalizeDownload m id fs renameOutcome).2.tempExists = false ∧
      (finalizeDownload m id fs renameOutcome).2.destExists = true) ∧
    (∀ e, m.get_exception id = none → renameOutcome = some e →
      (finalizeDownload m id fs renameOutcome).1.get_exception id = some e ∧
      (finalizeDownload m id fs renameOutcome).2.tempExists = false ∧
      (finalizeDownload m id fs renameOutcome).2.destExists = fs.destExists ∧
      pollForResult (finalizeDownload m id fs renameOutcome).1 id =
        .raised e) := by
  refine ⟨?_, ?_, ?_, ?_⟩
  · simp only [finalizeDownload]
    exact is_done_notify_done _ _
  · intro e hexc
    have hsome : (m.get_exception id).isSome = true := by simp [hexc]
    refine ⟨by simp [finalizeDownload, hsome], by simp [finalizeDownload, hsome], ?_⟩
    have h1 : (finalizeDownload m id fs renameOutcome).1 =
        m.notify_done id := by simp [finalizeDownload, hsome]
    rw [h1]
    simp [pollForResult, is_done_notify_done, get_exception_notify_done, hexc]
  · intro hexc hren
    have hnone : (m.get_exception id).isSome = false := by simp [hexc]
    constructor <;>
      simp [finalizeDownload, hnone, doFileRename, hren]
  · intro e hexc hren
    have hnone : (m.get_exception id).isSome = false := by simp [hexc]
    have h1 : (finalizeDownload m id fs renameOutcome).1 =
        (m.notify_exception id e).notify_done id := by
      simp [finalizeDownload, hnone, doFileRename, hren]
    refine ⟨?_, by simp [finalizeDownload, hnone, doFileRename, hren],
      by simp [finalizeDownload, hnone, doFileRename, hren], ?_⟩
    · rw [h1, get_exception_notify_done]
      exact get_exception_notify_exception m id e
    · rw [h1]
      simp [pollForResult, is_done_notify_done, get_exception_notify_done,
        get_exception_notify_exception]

theorem claim_C4_witness :
    ((initialMonitor.notify_exception 2 .cancelledError).get_exception 2 =
      some .cancelledError) ∧
    (finalizeDownload (initialMonitor.notify_exception 2 .cancelledError) 2
        ⟨true, false⟩ none).2.tempExists = false ∧
    (initialMonitor.get_exception 3 = none) ∧
    (finalizeDownload initialMonitor 3 ⟨true, false⟩ none).2.destExists =
      true ∧
    (finalizeDownload initialMonitor 3 ⟨true, false⟩
        (some (.osError 5))).1.get_exception 3 = some (.osError 5) := by
  refine ⟨by decide, ?_, by decide, ?_, ?_⟩
  · exact ((claim_C4 (initialMonitor.notify_exception 2 .cancelledError) 2
      ⟨true, false⟩ none).2.1 .cancelledError (by decide)).1
  · exact ((claim_C4 initialMonitor 3 ⟨true, false⟩ none).2.2.1 (by decide)
      (by decide)).2
  · exact ((claim_C4 initialMonitor 3 ⟨true, false⟩
      (some (.osError 5))).2.2.2 (.osError 5) (by decide) rfl).1

/-! ## Claim C6 -/

theorem jobsOfTrace_cons_notifyExpected (id : Nat) (n : Int)
    (l : List SubmitEvent) :
    jobsOfTrace (.notifyExpected id n :: l) = jobsOfTrace l := rfl

theorem jobsOfTrace_putJobs_map (l : List Nat) (g : Nat → GetObjectJob) :
    jobsOfTrace (l.map (fun i => SubmitEvent.putJob (g i))) = l.map g := by
  induction l with
  | nil => rfl
  | cons x xs ih =>
    simp only [List.map_cons, jobsOfTrace, List.filterMap_cons] at ih ⊢
    rw [ih]

/-- Claim C6: for every download request processed by the submitter,
`notify_expected_jobs_to_complete(transfer_id, n)` is invoked strictly
before any `GetObjectJob` for that transfer is put on the worker queue, in
both the single-job and the ranged branch (and the registered `n` is the
number of jobs the submitter puts), so no worker can observe a job whose
transfer has an unregistered job count. -/
theorem claim_C6 (config : ProcessTransferConfig) (inp : SubmitterInput)
    (i : Nat) (hi : i < (submitterHandleRequest config inp).length)
    (hput : ((submitterHandleRequest config inp).get ⟨i, hi⟩).isPutJob =
      true) :
    ∃ k, ∃ hk : k < (submitterHandleRequest config inp).length, k < i ∧
      (submitterHandleRequest config inp).get ⟨k, hk⟩ =
        .notifyExpected inp.req.transfer_id
          ((jobsOfTrace (submitterHandleRequest config inp)).length : Int) := by
  rcases hs : getSize inp.req inp.headResult with e | size
  · exfalso
    have htr : submitterHandleRequest config inp =
        [.notifyExc inp.req.transfer_id e, .notifyDone inp.req.transfer_id] := by
      simp [submitterHandleRequest, submitGetObjectJobs, hs]
    obtain ⟨ev, hev, hmem⟩ : ∃ ev : SubmitEvent, ev.isPutJob = true ∧
        ev ∈ submitterHandleRequest config inp :=
      ⟨_, hput, List.get_mem _ _ _⟩
    rw [htr] at hmem
    simp only [List.mem_cons, List.not_mem_nil, or_false] at hmem
    rcases hmem with h | h <;> rw [h] at hev <;>
      simp [SubmitEvent.isPutJob] at hev
  · rcases ha : inp.allocOutcome with _ | e
    swap
    · exfalso
      have htr : submitterHandleRequest config inp =
          [.notifyExc inp.req.transfer_id e, .notifyDone inp.req.transfer_id] := by
        simp [submitterHandleRequest, submitGetObjectJobs, hs, ha]
      obtain ⟨ev, hev, hmem⟩ : ∃ ev : SubmitEvent, ev.isPutJob = true ∧
          ev ∈ submitterHandleRequest config inp :=
        ⟨_, hput, List.get_mem _ _ _⟩
      rw [htr] at hmem
      simp only [List.mem_cons, List.not_mem_nil, or_false] at hmem
      rcases hmem with h | h <;> rw [h] at hev <;>
        simp [SubmitEvent.isPutJob] at hev
    · by_cases hlt : size < config.multipart_threshold
      · have htr : submitterHandleRequest config inp =
            submitSingleGetObjectJobTrace inp.req inp.tempFilename := by
          simp [submitterHandleRequest, submitGetObjectJobs, hs, ha, hlt]
        have h0 : 0 < i := by
          rcases Nat.eq_zero_or_pos i with h0 | h0
          · exfalso
            subst h0
            rw [List.get_of_eq htr] at hput
            simp [submitSingleGetObjectJobTrace, List.get,
              SubmitEvent.isPutJob] at hput
          · exact h0
        rw [htr]
        refine ⟨0, ?_, h0, ?_⟩
        · simp [submitSingleGetObjectJobTrace]
        · simp [submitSingleGetObjectJobTrace, jobsOfTrace, List.get]
      · have htr : submitterHandleRequest config inp =
            submitRangedGetObjectJobsTrace config inp.req inp.tempFilename
              size := by
          simp [submitterHandleRequest, submitGetObjectJobs, hs, ha, hlt]
        have h0 : 0 < i := by
          rcases Nat.eq_zero_or_pos i with h0 | h0
          · exfalso
            subst h0
            rw [List.get_of_eq htr] at hput
            simp [submitRangedGetObjectJobsTrace, List.get,
              SubmitEvent.isPutJob] at hput
          · exact h0
        rw [htr]
        refine ⟨0, ?_, h0, ?_⟩
        · simp [submitRangedGetObjectJobsTrace]
        · simp only [submitRangedGetObjectJobsTrace,
            jobsOfTrace_cons_notifyExpected, jobsOfTrace_putJobs_map,
            List.length_map, List.length_range]
          simp [List.get]

theorem claim_C6_witness :
    (1 < (submitterHandleRequest configSmall inpLarge).length) ∧
    ∃ k, ∃ hk : k < (submitterHandleRequest configSmall inpLarge).length,
      k < 1 ∧ (submitterHandleRequest configSmall inpLarge).get ⟨k, hk⟩ =
        .notifyExpected inpLarge.req.transfer_id
          ((jobsOfTrace
              (submitterHandleRequest configSmall inpLarge)).length : Int) := by
  refine ⟨by decide, ?_⟩
  exact claim_C6 configSmall inpLarge 1 (by decide) (by decide)

/-! ## Claim C5 -/

theorem doGetObjectFrom_success (attempts : Nat → GetAttempt) :
    ∀ k i fuel : Nat, ∀ lastException : Option Exc,
      (∀ j, j < k → (attempts (i + j)).isRetryableFailure = true) →
      k < fuel → attempts (i + k) = .success →
      doGetObjectFrom attempts i fuel lastException = .ok () := by
  intro k
  induction k with
  | zero =>
    intro i fuel lastException _ hfuel hsucc
    rcases fuel with _ | fuel
    · cases hfuel
    · simp only [doGetObjectFrom]
      rw [show i + 0 = i from rfl] at hsucc
      rw [hsucc]
  | succ k ih =>
    intro i fuel lastException hretry hfuel hsucc
    rcases fuel with _ | fuel
    · cases hfuel
    · have h0 : (attempts i).isRetryableFailure = true := by
        have := hretry 0 (Nat.succ_pos k)
        simpa using this
      rcases hatt : attempts i with _ | e
      · rw [hatt] at h0; cases h0
      · rw [hatt] at h0
        simp only [GetAttempt.isRetryableFailure] at h0
        simp only [doGetObjectFrom, hatt, h0, if_true]
        refine ih (i + 1) fuel (some e) ?_ (Nat.lt_of_succ_lt_succ hfuel) ?_
        · intro j hj
          have := hretry (j + 1) (Nat.succ_lt_succ hj)
          rwa [show i + (j + 1) = i + 1 + j by omega] at this
        · rwa [show i + 1 + k = i + (k + 1) by omega]

theorem doGetObjectFrom_fatal (attempts : Nat → GetAttempt) (e : Exc) :
    ∀ k i fuel : Nat, ∀ lastException : Option Exc,
      (∀ j, j < k → (attempts (i + j)).isRetryableFailure = true) →
      k < fuel → attempts (i + k) = .failure e →
      isS3RetryableDownloadError e = false →
      doGetObjectFrom attempts i fuel lastException = .error e := by
  intro k
  induction k with
  | zero =>
    intro i fuel lastException _ hfuel hfail hnr
    rcases fuel with _ | fuel
    · cases hfuel
    · simp only [doGetObjectFrom]
      rw [show i + 0 = i from rfl] at hfail
      rw [hfail]
      simp [hnr]
  | succ k ih =>
    intro i fuel lastException hretry hfuel hfail hnr
    rcases fuel with _ | fuel
    · cases hfuel
    · have h0 : (attempts i).isRetryableFailure = true := by
        have := hretry 0 (Nat.succ_pos k)
        simpa using this
      rcases hatt : attempts i with _ | f
      · rw [hatt] at h0; cases h0
      · rw [hatt] at h0
        simp only [GetAttempt.isRetryableFailure] at h0
        simp only [doGetObjectFrom, hatt, h0, if_true]
        refine ih (i + 1) fuel (some f) ?_ (Nat.lt_of_succ_lt_succ hfuel) ?_ hnr
        · intro j hj
          have := hretry (j + 1) (Nat.succ_lt_succ hj)
          rwa [show i + (j + 1) = i + 1 + j by omega] at this
        · rwa [show i + 1 + k = i + (k + 1) by omega]

theorem doGetObjectFrom_exhausted (attempts : Nat → GetAttempt)
    (failureOf : Nat → Exc) :
    ∀ fuel : Nat, 1 ≤ fuel → ∀ i : Nat, ∀ lastException : Option Exc,
      (∀ j, j < fuel → attempts (i + j) = .failure (failureOf (i + j)) ∧
        isS3RetryableDownloadError (failureOf (i + j)) = true) →
      doGetObjectFrom attempts i fuel lastException =
        .error (.retriesExceeded (failureOf (i + fuel - 1))) := by
  intro fuel
  induction fuel with
  | zero => intro h; cases h
  | succ fuel ih =>
    intro _ i lastException hall
    obtain ⟨hfail, hretry⟩ := hall 0 (Nat.succ_pos fuel)
    rw [show i + 0 = i from rfl] at hfail hretry
    simp only [doGetObjectFrom, hfail, hretry, if_true]
    rcases Nat.eq_zero_or_pos fuel with hf | hf
    · subst hf
      simp only [doGetObjectFrom]
      rw [show i + 1 - 1 = i from rfl]
    · have := ih hf (i + 1) (some (failureOf i)) ?_
      · rw [this, show i + 1 + fuel - 1 = i + (fuel + 1) - 1 by omega]
      · intro j hj
        have := hall (j + 1) (Nat.succ_lt_succ hj)
        rwa [show i + (j + 1) = i + 1 + j by omega] at this

/-- Claim C5: a worker's range read retries only on the defined retryable
error kinds up to a fixed maximum attempt count.  If, after a run of
retryable failures, an attempt succeeds within the cap, the job completes
successfully (and nothing is recorded); if all `_MAX_ATTEMPTS` attempts fail
with retryable errors, the worker raises a distinguished
`RetriesExceededError` wrapping the last underlying error, which is then
recorded via `notify_exception`; and a non-retryable error is escalated
immediately without consuming further attempts, and recorded. -/
theorem claim_C5 (m : TransferMonitor) (id : Nat)
    (attA attB attC : Nat → GetAttempt) (kA kC : Nat) (eC : Exc)
    (failureOf : Nat → Exc) :
    ((∀ j, j < kA → (attA j).isRetryableFailure = true) →
      kA < MAX_ATTEMPTS → attA kA = .success →
      doGetObject attA = .ok () ∧ runGetObjectJob m id attA = m) ∧
    ((∀ j, j < MAX_ATTEMPTS → attB j = .failure (failureOf j) ∧
        isS3RetryableDownloadError (failureOf j) = true) →
      doGetObject attB =
        .error (.retriesExceeded (failureOf (MAX_ATTEMPTS - 1))) ∧
      (runGetObjectJob m id attB).get_exception id =
        some (.retriesExceeded (failureOf (MAX_ATTEMPTS - 1)))) ∧
    ((∀ j, j < kC → (attC j).isRetryableFailure = true) →
      kC < MAX_ATTEMPTS → attC kC = .failure eC →
      isS3RetryableDownloadError eC = false →
      doGetObject attC = .error eC ∧
      (runGetObjectJob m id attC).get_exception id = some eC) := by
  refine ⟨?_, ?_, ?_⟩
  · intro hretry hcap hsucc
    have hok : doGetObject attA = .ok () :=
      doGetObjectFrom_success attA kA 0 MAX_ATTEMPTS none
        (by simpa using hretry) hcap (by simpa using hsucc)
    exact ⟨hok, by simp [runGetObjectJob, hok]⟩
  · intro hall
    have herr : doGetObject attB =
        .error (.retriesExceeded (failureOf (MAX_ATTEMPTS - 1))) := by
      have := doGetObjectFrom_exhausted attB failureOf MAX_ATTEMPTS
        (by simp [MAX_ATTEMPTS]) 0 none (by simpa using hall)
      simpa [doGetObject] using this
    refine ⟨herr, ?_⟩
    simp only [runGetObjectJob, herr]
    exact get_exception_notify_exception m id _
  · intro hretry hcap hfail hnr
    have herr : doGetObject attC = .error eC :=
      doGetObjectFrom_fatal attC eC kC 0 MAX_ATTEMPTS none
        (by simpa using hretry) hcap (by simpa using hfail) hnr
    refine ⟨herr, ?_⟩
    simp only [runGetObjectJob, herr]
    exact get_exception_notify_exception m id eC

theorem claim_C5_witness :
    ((fun j => if j < 2 then GetAttempt.failure (.clientError 1 true)
               else GetAttempt.success) 2 = GetAttempt.success) ∧
    doGetObject (fun j => if j < 2 then GetAttempt.failure (.clientError 1 true)
               else GetAttempt.success) = .ok () ∧
    doGetObject (fun j => GetAttempt.failure (.clientError j true)) =
      .error (.retriesExceeded (.clientError (MAX_ATTEMPTS - 1) true)) ∧
    doGetObject (fun j => if j < 1 then GetAttempt.failure (.clientError 1 true)
               else GetAttempt.failure (.osError 3)) = .error (.osError 3) := by
  refine ⟨by decide, ?_, ?_, ?_⟩
  · exact ((claim_C5 initialMonitor 0
      (fun j => if j < 2 then GetAttempt.failure (.clientError 1 true)
                else GetAttempt.success)
      (fun j => GetAttempt.failure (.clientError j true))
      (fun j => if j < 1 then GetAttempt.failure (.clientError 1 true)
                else GetAttempt.failure (.osError 3))
      2 1 (.osError 3) (fun j => .clientError j true)).1
      (by decide) (by decide) (by decide)).1
  · exact ((claim_C5 initialMonitor 0
      (fun j => if j < 2 then GetAttempt.failure (.clientError 1 true)
                else GetAttempt.success)
      (fun j => GetAttempt.failure (.clientError j true))
      (fun j => if j < 1 then GetAttempt.failure (.clientError 1 true)
                else GetAttempt.failure (.osError 3))
      2 1 (.osError 3) (fun j => .clientError j true)).2.1
      (by decide)).1
  · exact ((claim_C5 initialMonitor 0
      (fun j => if j < 2 then GetAttempt.failure (.clientError 1 true)
                else GetAttempt.success)
      (fun j => GetAttempt.failure (.clientError j true))
      (fun j => if j < 1 then GetAttempt.failure (.clientError 1 true)
                else GetAttempt.failure (.osError 3))
      2 1 (.osError 3) (fun j => .clientError j true)).2.2
      (by decide) (by decide) (by decide) (by decide)).1

/-! ## Claim C2 -/

theorem applyTrace_putJobs_map (m : TransferMonitor) (l : List Nat)
    (g : Nat → GetObjectJob) :
    applyTrace m (l.map (fun i => SubmitEvent.putJob (g i))) = m := by
  induction l generalizing m with
  | nil => rfl
  | cons x xs ih =>
    simp only [List.map_cons, applyTrace_cons, applyEvent]
    exact ih m

theorem dictUpdate_lookup_of_absent (v : ArgVal)
    (upd : List (String × ArgVal)) (hR : upd.lookup "Range" = none) :
    (dictUpdate [("Range", v)] upd).lookup "Range" = some v := by
  simp [dictUpdate, hR, List.filter, List.lookup]

theorem calculate_num_parts_spec (size C : Nat) (hC : 0 < C)
    (hpos : 0 < size) :
    0 < calculate_num_parts size C ∧
    C * (calculate_num_parts size C - 1) < size ∧
    size ≤ C * calculate_num_parts size C := by
  have hd := Nat.div_add_mod (size + C - 1) C
  have hm : (size + C - 1) % C < C := Nat.mod_lt _ hC
  have h1 : 0 < (size + C - 1) / C :=
    Nat.div_pos (show C ≤ size + C - 1 by omega) hC
  unfold calculate_num_parts
  obtain ⟨k, hk⟩ : ∃ k, (size + C - 1) / C = k + 1 :=
    ⟨(size + C - 1) / C - 1, by omega⟩
  rw [hk] at hd ⊢
  have e2 : C * (k + 1) = C * k + C := by ring
  rw [e2] at hd
  rw [Nat.add_sub_cancel, e2]
  generalize C * k = a at hd ⊢
  omega

theorem rangedJobs_eq (config : ProcessTransferConfig)
    (req : DownloadFileRequest) (temp : String) (size : Nat) :
    rangedJobs config req temp size =
      (List.range (calculate_num_parts size config.multipart_chunksize)).map
        (fun i =>
          { transfer_id := req.transfer_id, bucket := req.bucket,
            key := req.key, temp_filename := temp,
            extra_args := dictUpdate
              [("Range", ArgVal.range
                 (calculate_range_parameter config.multipart_chunksize i
                   (calculate_num_parts size config.multipart_chunksize)
                   size).1
                 (calculate_range_parameter config.multipart_chunksize i
                   (calculate_num_parts size config.multipart_chunksize)
                   size).2)]
              req.extra_args,
            offset := i * config.multipart_chunksize,
            filename := req.filename }) := by
  simp only [rangedJobs, submitRangedGetObjectJobsTrace,
    jobsOfTrace_cons_notifyExpected]
  rw [jobsOfTrace_putJobs_map]

/-- Claim C2: for every object size at or above the multipart threshold with
chunk size `C` (positive), the submitter takes the ranged branch and
produces `num_parts = ceil(size / C)` jobs (characterized by
`C * (num_parts - 1) < size ≤ C * num_parts`), registers
`jobs_remaining = num_parts`, gives part `i` the byte offset `i * C`, and
the final part's inclusive range end equals `size - 1` (clamped, never
beyond the true size). -/
theorem claim_C2 (config : ProcessTransferConfig) (req : DownloadFileRequest)
    (headResult : Except Exc Nat) (temp : String) (size : Nat)
    (m : TransferMonitor)
    (hC : 0 < config.multipart_chunksize)
    (hsize : getSize req headResult = .ok size)
    (hthr : config.multipart_threshold ≤ size) (hpos : 0 < size)
    (hR : req.extra_args.lookup "Range" = none) :
    submitGetObjectJobs config req headResult none temp =
      .ok (submitRangedGetObjectJobsTrace config req temp size) ∧
    (rangedJobs config req temp size).length =
      calculate_num_parts size config.multipart_chunksize ∧
    config.multipart_chunksize *
        ((rangedJobs config req temp size).length - 1) < size ∧
    size ≤ config.multipart_chunksize *
        (rangedJobs config req temp size).length ∧
    ((applyTrace m (submitRangedGetObjectJobsTrace config req temp
        size)).transferStates req.transfer_id).jobsToComplete =
      ((rangedJobs config req temp size).length : Int) ∧
    (∀ i, ∀ h : i < (rangedJobs config req temp size).length,
      ((rangedJobs config req temp size).get ⟨i, h⟩).offset =
        i * config.multipart_chunksize) ∧
    ∃ h : (rangedJobs config req temp size).length - 1 <
        (rangedJobs config req temp size).length,
      (((rangedJobs config req temp size).get
          ⟨(rangedJobs config req temp size).length - 1,
           h⟩).extra_args.lookup "Range") =
        some (.range
          (((rangedJobs config req temp size).length - 1) *
            config.multipart_chunksize)
          (size - 1)) := by
  have hlen : (rangedJobs config req temp size).length =
      calculate_num_parts size config.multipart_chunksize := by
    rw [rangedJobs_eq]
    simp
  obtain ⟨hn1, hlo, hhi⟩ :=
    calculate_num_parts_spec size config.multipart_chunksize hC hpos
  refine ⟨?_, hlen, ?_, ?_, ?_, ?_, ?_⟩
  · simp [submitGetObjectJobs, hsize, Nat.not_lt.mpr hthr]
  · rw [hlen]; exact hlo
  · rw [hlen]; exact hhi
  · simp only [submitRangedGetObjectJobsTrace, applyTrace_cons, applyEvent,
      applyTrace_putJobs_map, hlen]
    simp [TransferMonitor.notify_expected_jobs_to_complete,
      transferStates_updateState]
  · intro i h
    rw [List.get_of_eq (rangedJobs_eq config req temp size)]
    simp [List.get_eq_getElem, List.getElem_map, List.getElem_range,
      Fin.coe_cast]
  · refine ⟨by omega, ?_⟩
    rw [List.get_of_eq (rangedJobs_eq config req temp size)]
    simp only [List.get_eq_getElem, List.getElem_map, List.getElem_range,
      Fin.coe_cast]
    rw [dictUpdate_lookup_of_absent _ _ hR]
    rw [hlen]
    have hlast : calculate_range_parameter config.multipart_chunksize
        (calculate_num_parts size config.multipart_chunksize - 1)
        (calculate_num_parts size config.multipart_chunksize) size =
        ((calculate_num_parts size config.multipart_chunksize - 1) *
          config.multipart_chunksize, size - 1) := by
      simp [calculate_range_parameter]
    rw [hlast]

theorem claim_C2_witness :
    (0 < configSmall.multipart_chunksize) ∧
    (getSize reqLarge (.ok 20) = .ok 20) ∧
    (configSmall.multipart_threshold ≤ 20) ∧
    (rangedJobs configSmall reqLarge "t" 20).length =
      calculate_num_parts 20 configSmall.multipart_chunksize ∧
    ∃ h : (rangedJobs configSmall reqLarge "t" 20).length - 1 <
        (rangedJobs configSmall reqLarge "t" 20).length,
      (((rangedJobs configSmall reqLarge "t" 20).get
          ⟨(rangedJobs configSmall reqLarge "t" 20).length - 1,
           h⟩).extra_args.lookup "Range") =
        some (.range
          (((rangedJobs configSmall reqLarge "t" 20).length - 1) *
            configSmall.multipart_chunksize)
          (20 - 1)) := by
  have h := claim_C2 configSmall reqLarge (.ok 20) "t" 20 initialMonitor
    (by decide) rfl (by decide) (by decide) rfl
  exact ⟨by decide, rfl, by decide, h.2.1, h.2.2.2.2.2.2⟩

/-! ## Claim C1 -/

theorem jobsToComplete_updateState (m : TransferMonitor) (idz j : Nat)
    (f : TransferState → TransferState)
    (hf : ∀ s, (f s).jobsToComplete = s.jobsToComplete) :
    ((m.updateState idz f).transferStates j).jobsToComplete =
      (m.transferStates j).jobsToComplete := by
  simp only [transferStates_updateState]
  split
  · exact hf _
  · rfl

theorem jobsToComplete_notify_exception (m : TransferMonitor) (idz j : Nat)
    (e : Exc) :
    ((m.notify_exception idz e).transferStates j).jobsToComplete =
      (m.transferStates j).jobsToComplete :=
  jobsToComplete_updateState m idz j _ (fun _ => rfl)

theorem jobsToComplete_notify_done (m : TransferMonitor) (idz j : Nat) :
    ((m.notify_done idz).transferStates j).jobsToComplete =
      (m.transferStates j).jobsToComplete :=
  jobsToComplete_updateState m idz j _ (fun _ => rfl)

theorem jobsToComplete_runGetObjectJob (m : TransferMonitor) (idz j : Nat)
    (attempts : Nat → GetAttempt) :
    ((runGetObjectJob m idz attempts).transferStates j).jobsToComplete =
      (m.transferStates j).jobsToComplete := by
  unfold runGetObjectJob
  rcases doGetObject attempts with e | u
  · exact jobsToComplete_notify_exception m idz j e
  · rfl

theorem jobsToComplete_finalizeDownload (m : TransferMonitor) (idz j : Nat)
    (fs : FsState) (renameOutcome : Option Exc) :
    ((finalizeDownload m idz fs renameOutcome).1.transferStates
        j).jobsToComplete = (m.transferStates j).jobsToComplete := by
  unfold finalizeDownload
  by_cases h : (m.get_exception idz).isSome
  · simp only [h, if_true]
    exact jobsToComplete_notify_done m idz j
  · simp only [h, Bool.false_eq_true, if_false]
    unfold doFileRename
    rcases renameOutcome with _ | e
    · exact jobsToComplete_notify_done m idz j
    · rw [jobsToComplete_notify_done, jobsToComplete_notify_exception]

theorem notify_job_complete_spec (m : TransferMonitor) (idz : Nat) :
    ((m.notify_job_complete idz).1.transferStates idz).jobsToComplete =
      (m.transferStates idz).jobsToComplete - 1 ∧
    (m.notify_job_complete idz).2 =
      (m.transferStates idz).jobsToComplete - 1 := by
  constructor <;>
    simp [TransferMonitor.notify_job_complete,
      TransferState.decrement_jobs_to_complete, transferStates_updateState]

theorem workerRunOneJob_spec (m : TransferMonitor) (fs : FsState)
    (job : GetObjectJob) (env : JobEnv) :
    (((workerRunOneJob m fs job env).1).transferStates
        job.transfer_id).jobsToComplete =
      (m.transferStates job.transfer_id).jobsToComplete - 1 ∧
    (workerRunOneJob m fs job env).2.2 =
      decide ((m.transferStates job.transfer_id).jobsToComplete - 1 = 0) := by
  simp only [workerRunOneJob]
  set m1 := if (m.get_exception job.transfer_id).isSome then m
    else runGetObjectJob m job.transfer_id env.attempts with hm1def
  have hm1 : (m1.transferStates job.transfer_id).jobsToComplete =
      (m.transferStates job.transfer_id).jobsToComplete := by
    rw [hm1def]
    split
    · rfl
    · exact jobsToComplete_runGetObjectJob m job.transfer_id
        job.transfer_id env.attempts
  have hp2 : (m1.notify_job_complete job.transfer_id).2 =
      (m.transferStates job.transfer_id).jobsToComplete - 1 := by
    rw [(notify_job_complete_spec m1 job.transfer_id).2, hm1]
  have hp1 : ((m1.notify_job_complete job.transfer_id).1.transferStates
      job.transfer_id).jobsToComplete =
      (m.transferStates job.transfer_id).jobsToComplete - 1 := by
    rw [(notify_job_complete_spec m1 job.transfer_id).1, hm1]
  by_cases hz : (m.transferStates job.transfer_id).jobsToComplete - 1 = 0
  · simp only [hp2, hz, if_true, decide_eq_true_eq]
    constructor
    · rw [jobsToComplete_finalizeDownload, hp1, hz]
    · simp [hz]
  · simp only [hp2, hz, if_false]
    constructor
    · exact hp1
    · simp [hz]

theorem workerRunJobs_spec (idz : Nat) :
    ∀ jobs : List (GetObjectJob × JobEnv), ∀ m : TransferMonitor,
    ∀ fs : FsState, (∀ p ∈ jobs, p.1.transfer_id = idz) →
      (((workerRunJobs m fs jobs).1.transferStates idz).jobsToComplete =
        (m.transferStates idz).jobsToComplete - jobs.length) ∧
      ((workerRunJobs m fs jobs).2.2 =
        flagsFrom ((m.transferStates idz).jobsToComplete) jobs.length) := by
  intro jobs
  induction jobs with
  | nil =>
    intro m fs _
    simp [workerRunJobs, flagsFrom]
  | cons p rest ih =>
    intro m fs hid
    obtain ⟨job, env⟩ := p
    have hjid : job.transfer_id = idz := hid (job, env) (List.mem_cons_self _ _)
    have hone := workerRunOneJob_spec m fs job env
    rw [hjid] at hone
    have hrest := ih (workerRunOneJob m fs job env).1
      (workerRunOneJob m fs job env).2.1
      (fun q hq => hid q (List.mem_cons_of_mem _ hq))
    simp only [workerRunJobs]
    constructor
    · rw [hrest.1, hone.1]
      simp only [List.length_cons]
      push_cast
      ring
    · rw [hrest.2, hone.1, hone.2]
      simp only [List.length_cons, flagsFrom]

theorem flagsFrom_count (n : Nat) :
    ∀ k : Int, (flagsFrom k n).count true =
      if 1 ≤ k ∧ k ≤ (n : Int) then 1 else 0 := by
  induction n with
  | zero =>
    intro k
    have hc : ¬(1 ≤ k ∧ k ≤ ((0 : Nat) : Int)) := by push_cast; omega
    simp only [flagsFrom, List.count_nil, if_neg hc]
  | succ n ih =>
    intro k
    rcases hdec : decide (k - 1 = 0) with _ | _
    · have hz : ¬(k - 1 = 0) := by simpa using hdec
      simp only [flagsFrom, hdec, List.count_cons, ih (k - 1)]
      norm_num
      split_ifs <;> omega
    · have hz : k - 1 = 0 := by simpa using hdec
      simp only [flagsFrom, hdec, List.count_cons, ih (k - 1)]
      norm_num
      split_ifs <;> omega

theorem flagsFrom_getLast (n : Nat) :
    ∀ k : Int, n ≠ 0 →
      (flagsFrom k n).getLast? = some (decide (k - n = 0)) := by
  induction n with
  | zero => intro k h; exact absurd rfl h
  | succ n ih =>
    intro k _
    rcases Nat.eq_zero_or_pos n with h0 | h0
    · subst h0
      simp [flagsFrom]
    · have hrest := ih (k - 1) (by omega)
      rcases hflags : flagsFrom (k - 1) n with _ | ⟨b, bs⟩
      · rw [hflags] at hrest
        simp at hrest
      · simp only [flagsFrom, hflags, List.getLast?_cons_cons]
        rw [← hflags, hrest]
        congr 1
        congr 1
        push_cast
        ring_nf

/-- Claim C1: for every transfer, each consumed job causes exactly one
decrement of the transfer's remaining-job count regardless of whether the
job's download work was performed, skipped because a failure was already
recorded, or itself failed; and the worker runs the finalize step if and
only if its decrement returns zero, so over any serialized sequence of the
transfer's jobs (the per-transfer lock serializes the decrements of the
racing workers) the counter ends at zero, exactly one step finalizes, and
it is the last step. -/
theorem claim_C1 (m : TransferMonitor) (fs : FsState) (idz : Nat)
    (jobs : List (GetObjectJob × JobEnv))
    (hid : ∀ p ∈ jobs, p.1.transfer_id = idz)
    (hcount : (m.transferStates idz).jobsToComplete = (jobs.length : Int))
    (hne : jobs.length ≠ 0) :
    ((workerRunJobs m fs jobs).1.transferStates idz).jobsToComplete = 0 ∧
    (workerRunJobs m fs jobs).2.2.count true = 1 ∧
    (workerRunJobs m fs jobs).2.2.getLast? = some true := by
  obtain ⟨hfinal, hflags⟩ := workerRunJobs_spec idz jobs m fs hid
  refine ⟨?_, ?_, ?_⟩
  · rw [hfinal, hcount]
    ring
  · rw [hflags, hcount, flagsFrom_count]
    have hc : 1 ≤ (jobs.length : Int) ∧
        (jobs.length : Int) ≤ (jobs.length : Int) := by
      refine ⟨?_, le_refl _⟩
      exact_mod_cast Nat.one_le_iff_ne_zero.mpr hne
    rw [if_pos hc]
  · rw [hflags, hcount, flagsFrom_getLast _ _ hne]
    simp

theorem claim_C1_witness :
    (∀ p ∈ [(jobW, envW), (jobW, envWfail)], p.1.transfer_id = 0) ∧
    ((initialMonitor.notify_expected_jobs_to_complete 0 2).transferStates
        0).jobsToComplete =
      (([(jobW, envW), (jobW, envWfail)] :
        List (GetObjectJob × JobEnv)).length : Int) ∧
    ((workerRunJobs (initialMonitor.notify_expected_jobs_to_complete 0 2)
        ⟨true, false⟩ [(jobW, envW), (jobW, envWfail)]).2.2.count true = 1) ∧
    ((workerRunJobs (initialMonitor.notify_expected_jobs_to_complete 0 2)
        ⟨true, false⟩
        [(jobW, envW), (jobW, envWfail)]).2.2.getLast? = some true) := by
  refine ⟨by decide, by decide, ?_, ?_⟩
  · exact (claim_C1 (initialMonitor.notify_expected_jobs_to_complete 0 2)
      ⟨true, false⟩ 0 [(jobW, envW), (jobW, envWfail)] (by decide)
      (by decide) (by decide)).2.1
  · exact (claim_C1 (initialMonitor.notify_expected_jobs_to_complete 0 2)
      ⟨true, false⟩ 0 [(jobW, envW), (jobW, envWfail)] (by decide)
      (by decide) (by decide)).2.2

/-! ## Claim C10 -/

theorem chunksOf_flatten (n : Nat) (l : List Nat) :
    (chunksOf n l).flatten = l := by
  induction l using chunksOf.induct n with
  | case1 => simp [chunksOf]
  | case2 x xs ih =>
    rw [chunksOf]
    simp only [List.flatten_cons, List.cons_append, ih]
    rw [List.take_append_drop]

theorem length_writeAt (file : List Nat) (pos : Nat) (data : List Nat)
    (h : pos + data.length ≤ file.length) :
    (writeAt file pos data).length = file.length := by
  simp [writeAt, List.length_take, List.length_drop]
  omega

theorem getElem?_writeAt_out (file : List Nat) (pos : Nat) (data : List Nat)
    (h : pos + data.length ≤ file.length) (i : Nat)
    (hi : i < pos ∨ pos + data.length ≤ i) :
    (writeAt file pos data)[i]? = file[i]? := by
  rcases hi with hi | hi
  · have h1 : i < (file.take pos ++ data).length := by
      simp [List.length_take]
      omega
    have h2 : i < (file.take pos).length := by
      simp [List.length_take]
      omega
    unfold writeAt
    rw [List.append_assoc, List.getElem?_append, if_pos h2,
      List.getElem?_take, if_pos hi]
  · have h1 : ¬ i < (file.take pos ++ data).length := by
      simp [List.length_take]
      omega
    unfold writeAt
    rw [List.getElem?_append, if_neg h1, List.getElem?_drop]
    congr 1
    simp only [List.length_append, List.length_take]
    omega

theorem length_writeChunks :
    ∀ cs : List (List Nat), ∀ file : List Nat, ∀ pos : Nat,
      pos + cs.flatten.length ≤ file.length →
      (writeChunks file pos cs).length = file.length := by
  intro cs
  induction cs with
  | nil => intro file pos _; rfl
  | cons c cs ih =>
    intro file pos h
    simp only [List.flatten_cons, List.length_append] at h
    have hw : (writeAt file pos c).length = file.length :=
      length_writeAt _ _ _ (by omega)
    simp only [writeChunks]
    rw [ih (writeAt file pos c) (pos + c.length) (by rw [hw]; omega), hw]

theorem getElem?_writeChunks_out :
    ∀ cs : List (List Nat), ∀ file : List Nat, ∀ pos i : Nat,
      pos + cs.flatten.length ≤ file.length →
      (i < pos ∨ pos + cs.flatten.length ≤ i) →
      (writeChunks file pos cs)[i]? = file[i]? := by
  intro cs
  induction cs with
  | nil => intro file pos i _ _; rfl
  | cons c cs ih =>
    intro file pos i h hi
    simp only [List.flatten_cons, List.length_append] at h hi
    have hw : (writeAt file pos c).length = file.length :=
      length_writeAt _ _ _ (by omega)
    simp only [writeChunks]
    rw [ih (writeAt file pos c) (pos + c.length) i (by rw [hw]; omega)
      (by omega)]
    exact getElem?_writeAt_out file pos c (by omega) i (by omega)

/-- Claim C10: a worker's write of a job's response body into the temp file
modifies only the bytes from the job's offset up to offset plus the body's
length: the file is opened in read-write mode without truncation (the length
is preserved), so all bytes outside that range (written by other jobs of the
same transfer, or pre-allocated) are left unchanged. -/
theorem claim_C10 (file body : List Nat) (offset : Nat)
    (h : offset + body.length ≤ file.length) :
    (writeToFile file offset body).length = file.length ∧
    ∀ i, i < offset ∨ offset + body.length ≤ i →
      (writeToFile file offset body)[i]? = file[i]? := by
  have hj : (chunksOf IO_CHUNKSIZE body).flatten = body :=
    chunksOf_flatten _ _
  constructor
  · unfold writeToFile
    apply length_writeChunks
    rw [hj]
    omega
  · intro i hi
    unfold writeToFile
    apply getElem?_writeChunks_out <;> rw [hj]
    · omega
    · exact hi

theorem claim_C10_witness :
    (1 + ([9, 9] : List Nat).length ≤ ([1, 2, 3, 4, 5] : List Nat).length) ∧
    (writeToFile [1, 2, 3, 4, 5] 1 [9, 9]).length = 5 ∧
    (writeToFile [1, 2, 3, 4, 5] 1 [9, 9])[0]? = some 1 ∧
    (writeToFile [1, 2, 3, 4, 5] 1 [9, 9])[4]? = some 5 := by
  have h := claim_C10 [1, 2, 3, 4, 5] [9, 9] 1 (by decide)
  exact ⟨by decide, h.1, h.2 0 (by decide), h.2 4 (by decide)⟩
